import Mathlib

/-!
Verification development for the libSMCE host-side runner core
(`src/SMCE/BoardRunner.cpp`, `src/SMCE/BoardData.cpp`).

The C++ code is shallowly embedded: each relevant function is translated
into an executable Lean definition, and the specification's claims are
settled as theorems about those definitions.
-/

namespace SMCE

/-! ## BoardData construction (BoardData.cpp, lines 34-66)

Only the pin-related part of the `BoardData` constructor is relevant to
the claims: declared pin ids are sorted ascending, one `Pin` is emplaced
per id, and gpio-driver descriptors assign capability flags to the pin
found by `std::find` over the sorted id list. -/

/-- One capability sub-descriptor of a gpio driver
(`BoardConfig::GpioDrivers::(AnalogDriver|DigitalDriver)`). -/
structure DriverCaps where
  board_read : Bool
  board_write : Bool
  deriving DecidableEq, Repr

/-- A gpio-driver descriptor (`BoardConfig::GpioDrivers`). -/
structure GpioDriver where
  pin_id : Nat
  analog_driver : Option DriverCaps
  digital_driver : Option DriverCaps
  deriving DecidableEq, Repr

/-- The slice of `BoardConfig` consumed by the pin-construction code. -/
structure BoardConfig where
  pins : List Nat
  gpio_drivers : List GpioDriver
  deriving DecidableEq, Repr

/-- In-shm pin representation (`BoardData::Pin`); capability flags default
to `false` as in the C++ value-initialized struct. -/
structure Pin where
  id : Nat
  can_analog_read : Bool := false
  can_analog_write : Bool := false
  can_digital_read : Bool := false
  can_digital_write : Bool := false
  deriving DecidableEq, Repr

/-- Flag assignment performed for one gpio driver on its target pin
(BoardData.cpp lines 56-65): plain assignment per sub-descriptor. -/
def updatePin (p : Pin) (d : GpioDriver) : Pin :=
  let p1 :=
    match d.analog_driver with
    | some dr => { p with can_analog_read := dr.board_read, can_analog_write := dr.board_write }
    | none => p
  match d.digital_driver with
  | some dr => { p1 with can_digital_read := dr.board_read, can_digital_write := dr.board_write }
  | none => p1

/-- Processing of one gpio driver (BoardData.cpp lines 50-66):
`std::find` over the sorted id list (first occurrence); absent id is
skipped silently; otherwise the pin at that index is updated. -/
def applyDriver (sortedPins : List Nat) (pins : List Pin) (d : GpioDriver) : List Pin :=
  match sortedPins.findIdx? (fun x => x = d.pin_id) with
  | none => pins
  | some idx =>
    match pins.get? idx with
    | none => pins
    | some p => pins.set idx (updatePin p d)

/-- The pin sequence built by the `BoardData` constructor
(BoardData.cpp lines 41-66): sort the declared ids ascending
(`std::sort`), emplace one `Pin` per id, then fold the gpio drivers. -/
def boardDataPins (c : BoardConfig) : List Pin :=
  let sortedPins := List.insertionSort (· ≤ ·) c.pins
  let pins := sortedPins.map (fun i => ({ id := i } : Pin))
  c.gpio_drivers.foldl (applyDriver sortedPins) pins

/-- All capability contributions (analog sub-descriptors) made by the
drivers targeting pin `pid`, in input order. -/
def analogContribs (drivers : List GpioDriver) (pid : Nat) : List DriverCaps :=
  (drivers.filter (fun d => d.pin_id = pid)).filterMap (fun d => d.analog_driver)

/-- All capability contributions (digital sub-descriptors) made by the
drivers targeting pin `pid`, in input order. -/
def digitalContribs (drivers : List GpioDriver) (pid : Nat) : List DriverCaps :=
  (drivers.filter (fun d => d.pin_id = pid)).filterMap (fun d => d.digital_driver)

/-- Last-write-wins reading of a flag: the value contributed by the last
driver carrying the relevant sub-descriptor, `false` if none did. -/
def lastFlag (contribs : List DriverCaps) (f : DriverCaps → Bool) : Bool :=
  ((contribs.getLast?).map f).getD false

/-- The claim's OR semantics, following the claim's words: each capability
flag equals the OR of all drivers' contributions for that flag. -/
def gpioOrSemantics (c : BoardConfig) : Prop :=
  ∀ p ∈ boardDataPins c,
    p.can_analog_read = (analogContribs c.gpio_drivers p.id).any (fun dr => dr.board_read) ∧
    p.can_analog_write = (analogContribs c.gpio_drivers p.id).any (fun dr => dr.board_write) ∧
    p.can_digital_read = (digitalContribs c.gpio_drivers p.id).any (fun dr => dr.board_read) ∧
    p.can_digital_write = (digitalContribs c.gpio_drivers p.id).any (fun dr => dr.board_write)

instance (c : BoardConfig) : Decidable (gpioOrSemantics c) := by
  unfold gpioOrSemantics
  exact List.decidableBAll _ _

/-! ## Library-list assembly (BoardRunner.cpp, lines 165-209)

`BoardRunner::build` assembles four `-D...=` cmake arguments from the
sketch config's library lists, in a single pass per list, then pops one
trailing `;` from each. -/

/-- The discriminated sketch-library variant
(`SketchConfig::{RemoteArduinoLibrary, LocalArduinoLibrary, FreestandingLibrary}`). -/
inductive SketchLibrary
  | remote (name : String) (version : String)
  | localLib (root_dir : String) (patch_for : String)
  | freestanding
  deriving DecidableEq, Repr

/-- The slice of `SketchConfig` consumed by `build`. -/
structure SketchConfig where
  preproc_libs : List SketchLibrary
  complink_libs : List SketchLibrary
  deriving DecidableEq, Repr

/-- The four assembled library-list arguments. -/
structure LibArgs where
  pp_remote : String
  cl_remote : String
  cl_local : String
  cl_patch : String
  deriving DecidableEq, Repr

/-- One step of the preproc-libs visitor (lines 169-179): only
`RemoteArduinoLibrary` contributes, as `name` or `name@version`,
followed by `;`. -/
def ppStep (acc : String) (lib : SketchLibrary) : String :=
  match lib with
  | .remote n v => acc ++ n ++ (if v = "" then "" else "@" ++ v) ++ ";"
  | _ => acc

/-- One step of the complink-libs visitor (lines 181-204), updating the
(remote, localList, patch) accumulator triple like the C++ lambda set. -/
def clStep (acc : String × String × String) (lib : SketchLibrary) : String × String × String :=
  match lib with
  | .remote n v => (acc.1 ++ n ++ (if v = "" then "" else "@" ++ v) ++ ";", acc.2.1, acc.2.2)
  | .localLib root patch =>
    if patch = "" then (acc.1, acc.2.1 ++ root ++ ";", acc.2.2)
    else (acc.1 ++ patch ++ " ", acc.2.1, acc.2.2 ++ root ++ "|" ++ patch ++ ";")
  | .freestanding => acc

/-- `if (arg.back() == ';') arg.pop_back();` (lines 206-209). -/
def popSemi (s : String) : String :=
  if s.back = ';' then s.dropRight 1 else s

/-- The four library-list arguments built by `BoardRunner::build`
(lines 165-209). -/
def buildLibArgs (skonf : SketchConfig) : LibArgs :=
  let pp := skonf.preproc_libs.foldl ppStep "-DPREPROC_REMOTE_LIBS="
  let cl := skonf.complink_libs.foldl clStep
    ("-DCOMPLINK_REMOTE_LIBS=", "-DCOMPLINK_LOCAL_LIBS=", "-DCOMPLINK_PATCH_LIBS=")
  { pp_remote := popSemi pp
    cl_remote := popSemi cl.1
    cl_local := popSemi cl.2.1
    cl_patch := popSemi cl.2.2 }

/-- Spec-side rendering of one library into the preproc-remote list
(§6.3): `name` or `name@version` plus separator; non-remotes contribute
nothing. -/
def ppContrib (lib : SketchLibrary) : String :=
  match lib with
  | .remote n v => n ++ (if v = "" then "" else "@" ++ v) ++ ";"
  | _ => ""

/-- Spec-side rendering of one library into the complink-remote list
(§6.3): remotes as `name[@version];`, patching locals register
`patch_for` followed by a space, the rest contribute nothing. -/
def clRemoteContrib (lib : SketchLibrary) : String :=
  match lib with
  | .remote n v => n ++ (if v = "" then "" else "@" ++ v) ++ ";"
  | .localLib _ patch => if patch = "" then "" else patch ++ " "
  | .freestanding => ""

/-- Spec-side rendering of one library into the complink-local list
(§6.3): only non-patching locals contribute, as `<path>;`. -/
def clLocalContrib (lib : SketchLibrary) : String :=
  match lib with
  | .localLib root patch => if patch = "" then root ++ ";" else ""
  | _ => ""

/-- Spec-side rendering of one library into the complink-patch list
(§6.3): only patching locals contribute, as `<path>|<name>;`. -/
def clPatchContrib (lib : SketchLibrary) : String :=
  match lib with
  | .localLib root patch => if patch = "" then "" else root ++ "|" ++ patch ++ ";"
  | _ => ""

/-- Spec-side library-list assembly (§6.3): each list independently is
its `-D` prefix, the concatenation of per-entry renders in input order,
and a trailing-`;` trim. -/
def specLibArgs (skonf : SketchConfig) : LibArgs :=
  { pp_remote := popSemi ("-DPREPROC_REMOTE_LIBS=" ++ String.join (skonf.preproc_libs.map ppContrib))
    cl_remote := popSemi ("-DCOMPLINK_REMOTE_LIBS=" ++ String.join (skonf.complink_libs.map clRemoteContrib))
    cl_local := popSemi ("-DCOMPLINK_LOCAL_LIBS=" ++ String.join (skonf.complink_libs.map clLocalContrib))
    cl_patch := popSemi ("-DCOMPLINK_PATCH_LIBS=" ++ String.join (skonf.complink_libs.map clPatchContrib)) }

/-! ## Build-configure marker scan (BoardRunner.cpp, lines 231-253)

Lines of the configure tool's merged output are scanned; a line is a
marker iff it starts with `-- SMCE: `. A marker's payload is obtained by
erasing everything up to and including the first `"` and popping the last
character. Lines are modelled as `List Char` (byte strings). -/

/-- Scanner state: the runner fields the loop mutates, the marker counter
`i`, and whether `assert(false)` was reached. -/
structure ScanState where
  dir : List Char
  bin : List Char
  log : List Char
  markers : Nat
  asserted : Bool
  deriving DecidableEq, Repr

/-- The marker head `"-- SMCE: "` as a byte string. -/
def markerTag : List Char := ['-', '-', ' ', 'S', 'M', 'C', 'E', ':', ' ']

/-- `line.starts_with("-- SMCE: ")` (line 235). -/
def isMarkerLine (line : List Char) : Bool :=
  markerTag.isPrefixOf line

/-- `line.erase(0, line.find_first_of('\x22') + 1); line.pop_back();`
(lines 240-241): when a `"` exists, drop through the first one and pop
the last char; `find_first_of` returning `npos` makes the erase a no-op. -/
def extractPayload (line : List Char) : List Char :=
  if '"' ∈ line then ((line.dropWhile (fun c => c ≠ '"')).drop 1).dropLast
  else line.dropLast

/-- A well-formed marker line carrying payload `d`. -/
def mkMarker (d : List Char) : List Char :=
  markerTag ++ '"' :: (d ++ ['"'])

/-- Processing of one output line (lines 234-252). -/
def scanLine (st : ScanState) (line : List Char) : ScanState :=
  if isMarkerLine line then
    let payload := extractPayload line
    match st.markers with
    | 0 => { st with dir := payload, markers := 1 }
    | 1 => { st with bin := payload, markers := 2 }
    | n + 2 => { st with markers := n + 3, asserted := true }
  else
    { st with log := st.log ++ line ++ ['\n'] }

/-- The whole `while (std::getline(...))` scan loop. -/
def scanLines (lines : List (List Char)) (st : ScanState) : ScanState :=
  lines.foldl scanLine st

/-! ## BoardRunner state machine (BoardRunner.cpp, lines 61-420)

The runner's observable state: its status, the path/log members, the
`Internal` data (`sketch_id`, the shared-board-data region and the child
process), and the global id counter `Internal::last_id`. The external
build tool and the child process are the environment; their behaviour on
one invocation is passed in as data. -/

/-- `BoardRunner::Status`. -/
inductive Status
  | clean
  | configured
  | built
  | running
  | suspended
  | stopped
  deriving DecidableEq, Repr

/-- Observable runner state. `board` models the pin sequence of the
`BoardData` living in the shm region (`none` before `configure`);
`shm_name` is the region's name; `last_id` is `Internal::last_id`;
`notify_count` / `last_notified` record invocations of the embedder's
exit-notification callback. -/
structure RunnerState where
  status : Status
  sketch_path : List Char
  sketch_dir : List Char
  sketch_bin : List Char
  build_log : List Char
  runtime_log : List Char
  fqbn : String
  bconf : BoardConfig
  sketch_id : Nat
  last_id : Nat
  shm_name : String
  board : Option (List Pin)
  child_running : Bool
  child_exit_code : Int
  exit_notify_set : Bool
  notify_count : Nat
  last_notified : Option Int
  deriving DecidableEq, Repr

/-- Output of one external build-tool invocation: its merged
stdout/stderr lines and its exit code. -/
structure ToolRun where
  lines : List (List Char)
  exit_code : Int
  deriving DecidableEq, Repr

/-- Environment of one `build`/`rebuild` call: the configure-pass run,
the build-pass run, and whether the sketch binary exists afterwards. -/
structure BuildEnv where
  conf : ToolRun
  build : ToolRun
  bin_exists : Bool
  deriving DecidableEq, Repr

/-- The shm region name `"SMCE-Runner-" + std::to_string(sketch_id)`
(lines 146, 271, 305). -/
def regionName (id : Nat) : String :=
  "SMCE-Runner-" ++ toString id

/-- `BoardRunner::configure` (lines 140-151): allowed from `clean` or
`configured`; provisions the shm region and builds the `BoardData`. -/
def configure (fqbn : String) (bconf : BoardConfig) (s : RunnerState) : Bool × RunnerState :=
  if s.status = .clean ∨ s.status = .configured then
    (true, { s with
      shm_name := regionName s.sketch_id
      board := some (boardDataPins bconf)
      bconf := bconf
      fqbn := fqbn
      status := .configured })
  else
    (false, s)

/-- `BoardRunner::reset` (lines 114-138): rejected in `running` and
`suspended`; otherwise replaces `Internal` (fresh `sketch_id = ++last_id`,
empty shared-board data, no child) and clears paths, logs and status. -/
def reset (s : RunnerState) : Bool × RunnerState :=
  if s.status = .running ∨ s.status = .suspended then
    (false, s)
  else
    (true, { s with
      sketch_id := s.last_id + 1
      last_id := s.last_id + 1
      shm_name := ""
      board := none
      child_running := false
      sketch_path := []
      sketch_dir := []
      sketch_bin := []
      build_log := []
      runtime_log := []
      status := .clean })

/-- Per-line log concatenation `(log += line) += '\n'`
(lines 287-290, 409-412). -/
def appendLogLines (log : List Char) (lines : List (List Char)) : List Char :=
  lines.foldl (fun acc l => acc ++ l ++ ['\n']) log

/-- `BoardRunner::do_build` (lines 397-420): runs the build pass,
appends its output to the build log, and reaches `built` only when the
tool exits 0 and the binary exists. -/
def do_build (env : BuildEnv) (s : RunnerState) : Bool × RunnerState :=
  let s1 := { s with build_log := appendLogLines s.build_log env.build.lines }
  if env.build.exit_code ≠ 0 ∨ env.bin_exists = false then
    (false, s1)
  else
    (true, { s1 with status := .built })

/-- `BoardRunner::build` (lines 153-262). Note: the source performs NO
status check. The configure-pass output is scanned for markers (updating
`m_sketch_dir`, `m_sketch_bin` and the build log); a third marker is an
assertion failure (modelled as `none`); a non-zero configure exit code
aborts after the scan; otherwise the sketch path is recorded and the
build pass runs. -/
def build (sketch_src : List Char) (skonf : SketchConfig) (env : BuildEnv)
    (s : RunnerState) : Option (Bool × RunnerState) :=
  let _args := buildLibArgs skonf
  let scan := scanLines env.conf.lines
    { dir := s.sketch_dir, bin := s.sketch_bin, log := s.build_log, markers := 0, asserted := false }
  if scan.asserted then none
  else
    let s1 := { s with sketch_dir := scan.dir, sketch_bin := scan.bin, build_log := scan.log }
    if env.conf.exit_code ≠ 0 then some (false, s1)
    else some (do_build env { s1 with sketch_path := sketch_src })

/-- `BoardRunner::rebuild` (lines 264-297): rejected when no sketch path
was recorded or while `running`/`suspended`; otherwise re-provisions the
shared board data, re-runs the configure pass (all of whose output lines
go to the build log, with no marker scan), and on exit code 0 runs the
build pass. -/
def rebuild (env : BuildEnv) (s : RunnerState) : Bool × RunnerState :=
  if s.sketch_path = [] ∨ s.status = .running ∨ s.status = .suspended then
    (false, s)
  else
    let s1 := { s with
      board := some (boardDataPins s.bconf)
      shm_name := regionName s.sketch_id }
    let s2 := { s1 with build_log := appendLogLines s1.build_log env.conf.lines }
    if env.conf.exit_code ≠ 0 then (false, s2)
    else do_build env s2

/-- `BoardRunner::start` (lines 299-331): only from `built`; spawns the
child and starts the log-drain thread. -/
def start (s : RunnerState) : Bool × RunnerState :=
  if s.status ≠ .built then (false, s)
  else (true, { s with status := .running, child_running := true })

/-- `BoardRunner::suspend` (lines 333-345): only from `running`. The
result of the OS primitive (`kill(pid, SIGSTOP)` / `NtSuspendProcess`)
is IGNORED by the source; `primitive_ok` models that result. -/
def suspend (primitive_ok : Bool) (s : RunnerState) : Bool × RunnerState :=
  if s.status ≠ .running then (false, s)
  else (true, { s with status := .suspended })

/-- `BoardRunner::resume` (lines 347-359): only from `suspended`. The
result of the OS primitive (`kill(pid, SIGCONT)` / `NtResumeProcess`)
is IGNORED by the source; `primitive_ok` models that result. -/
def resume (primitive_ok : Bool) (s : RunnerState) : Bool × RunnerState :=
  if s.status ≠ .suspended then (false, s)
  else (true, { s with status := .running })

/-- `BoardRunner::terminate` (lines 361-374): only from `running` or
`suspended`; `kill_ok` models the error code of `sketch.terminate(ec)`. -/
def terminate (kill_ok : Bool) (s : RunnerState) : Bool × RunnerState :=
  if s.status ≠ .running ∧ s.status ≠ .suspended then (false, s)
  else if kill_ok then (true, { s with status := .stopped, child_running := false })
  else (false, s)

/-- `BoardRunner::stop` (line 395): an alias of `terminate`. -/
def stop (kill_ok : Bool) (s : RunnerState) : Bool × RunnerState :=
  terminate kill_ok s

/-- `BoardRunner::tick` (lines 100-112): in `running`/`suspended`, if
the child has exited, move to `stopped` and (when an exit-notification
callback is installed) invoke it with the child's exit code; a no-op in
every other status. -/
def tick (s : RunnerState) : RunnerState :=
  match s.status with
  | .running | .suspended =>
    if s.child_running then s
    else if s.exit_notify_set then
      { s with
        status := .stopped
        notify_count := s.notify_count + 1
        last_notified := some s.child_exit_code }
    else
      { s with status := .stopped }
  | _ => s

/-! ## Concrete sample inputs used to instantiate the theorems -/

/-- An empty board config. -/
def sampleConf : BoardConfig :=
  { pins := [], gpio_drivers := [] }

/-- An empty sketch config. -/
def sampleSkonf : SketchConfig :=
  { preproc_libs := [], complink_libs := [] }

/-- A build environment whose tool runs succeed, emit two well-formed
markers in the configure pass, and leave the binary in place. -/
def sampleEnv : BuildEnv :=
  { conf := { lines := [mkMarker ['/', 'd'], ['h', 'i'], mkMarker ['/', 'b']], exit_code := 0 }
    build := { lines := [['o', 'k']], exit_code := 0 }
    bin_exists := true }

/-- A runner state with the given status, non-empty paths and logs, and a
live child, as left behind by a full configure/build/start run. -/
def sampleState (st : Status) : RunnerState :=
  { status := st
    sketch_path := ['s']
    sketch_dir := ['d']
    sketch_bin := ['b']
    build_log := ['l']
    runtime_log := ['r']
    fqbn := "f"
    bconf := sampleConf
    sketch_id := 5
    last_id := 7
    shm_name := "SMCE-Runner-5"
    board := some []
    child_running := true
    child_exit_code := 42
    exit_notify_set := true
    notify_count := 0
    last_notified := none }

/-- A fresh runner state with the given status: empty paths and logs and
no child, as right after construction. -/
def sampleState0 (st : Status) : RunnerState :=
  { status := st
    sketch_path := []
    sketch_dir := []
    sketch_bin := []
    build_log := []
    runtime_log := []
    fqbn := ""
    bconf := sampleConf
    sketch_id := 5
    last_id := 7
    shm_name := ""
    board := none
    child_running := false
    child_exit_code := 0
    exit_notify_set := true
    notify_count := 0
    last_notified := none }

/-- The S1 scenario board config: declared pins `[7, 2, 3]`, a digital
read/write driver for pin 3 and an analog-read driver for absent pin 9. -/
def s1Conf : BoardConfig :=
  { pins := [7, 2, 3]
    gpio_drivers := [
      { pin_id := 3, analog_driver := none, digital_driver := some ⟨true, true⟩ },
      { pin_id := 9, analog_driver := some ⟨true, false⟩, digital_driver := none }] }

/-- A board config with two analog drivers for the same pin, the first
readable and the second not: OR semantics and last-write-wins semantics
disagree on it. -/
def cexConf : BoardConfig :=
  { pins := [1]
    gpio_drivers := [
      { pin_id := 1, analog_driver := some ⟨true, false⟩, digital_driver := none },
      { pin_id := 1, analog_driver := some ⟨false, false⟩, digital_driver := none }] }

/-! ## Theorems -/

/-- C7: `reset` invoked in status `running` or `suspended` returns
`false` and changes nothing; `reset` invoked in any other status returns
`true`, after which `sketch_dir`, `sketch_bin`, `build_log` and
`runtime_log` are all empty and the status is `clean`. -/
theorem reset_spec (s : RunnerState) :
    ((s.status = .running ∨ s.status = .suspended) → reset s = (false, s)) ∧
    (¬(s.status = .running ∨ s.status = .suspended) →
      (reset s).1 = true ∧
      (reset s).2.sketch_dir = [] ∧
      (reset s).2.sketch_bin = [] ∧
      (reset s).2.build_log = [] ∧
      (reset s).2.runtime_log = [] ∧
      (reset s).2.status = .clean) := by
  constructor
  · intro h
    simp [reset, h]
  · intro h
    simp [reset, h]

/-- Witness for C7: `reset` at concrete states on both sides of the
guard. -/
theorem reset_spec_witness :
    reset (sampleState .running) = (false, sampleState .running) ∧
    (reset (sampleState .built)).1 = true ∧
    (reset (sampleState .built)).2.build_log = [] ∧
    (reset (sampleState .built)).2.status = .clean := by
  refine ⟨(reset_spec (sampleState .running)).1 (Or.inl rfl), ?_, ?_, ?_⟩
  · exact ((reset_spec (sampleState .built)).2 (by decide)).1
  · exact ((reset_spec (sampleState .built)).2 (by decide)).2.2.2.1
  · exact ((reset_spec (sampleState .built)).2 (by decide)).2.2.2.2.2

/-- C9: `rebuild` returns `false` with no state change whenever no prior
build has recorded a sketch source path, independently of the current
status. -/
theorem rebuild_requires_sketch_path (env : BuildEnv) (s : RunnerState)
    (h : s.sketch_path = []) :
    rebuild env s = (false, s) := by
  simp [rebuild, h]

/-- Witness for C9: a fresh runner in status `built` (not `running` or
`suspended`) with no recorded sketch path still has `rebuild` rejected. -/
theorem rebuild_requires_sketch_path_witness :
    rebuild sampleEnv (sampleState0 .built) = (false, sampleState0 .built) :=
  rebuild_requires_sketch_path sampleEnv (sampleState0 .built) rfl

/-- C2 (amended): in status `running`, `suspend` always returns `true`
and sets the status to `suspended`, whatever the OS suspend primitive
returned, because the source ignores the primitive's result; symmetric
statement for `resume` in status `suspended`. -/
theorem suspend_resume_ignore_primitive (ok : Bool) (s : RunnerState) :
    (s.status = .running → suspend ok s = (true, { s with status := .suspended })) ∧
    (s.status = .suspended → resume ok s = (true, { s with status := .running })) := by
  constructor
  · intro h
    simp [suspend, h]
  · intro h
    simp [resume, h]

/-- Witness for C2: concrete `running` and `suspended` states. -/
theorem suspend_resume_ignore_primitive_witness :
    suspend true (sampleState .running) = (true, { sampleState .running with status := .suspended }) ∧
    resume true (sampleState .suspended) = (true, { sampleState .suspended with status := .running }) :=
  ⟨(suspend_resume_ignore_primitive true (sampleState .running)).1 rfl,
   (suspend_resume_ignore_primitive true (sampleState .suspended)).2 rfl⟩

/-- Counterexample for C2 as stated: with the OS primitive failing
(modelled by `primitive_ok = false`), `suspend` in status `running`
still returns `true` and still moves the status to `suspended`, instead
of returning `false` with the status unchanged. -/
theorem suspend_primitive_failure_cex :
    (suspend false (sampleState .running)).1 = true ∧
    (suspend false (sampleState .running)).2.status = .suspended := by
  constructor
  · rfl
  · rfl

/-- C1 (amended): every public runner operation except `build` rejects a
status outside its permitted source states by returning `false` with the
whole runner state unchanged: `configure` outside `clean`/`configured`,
`start` outside `built`, `suspend` outside `running`, `resume` outside
`suspended`, `terminate` and `stop` outside `running`/`suspended`,
`reset` and `rebuild` in `running`/`suspended`. `build` performs no
status check (see the counterexample). -/
theorem guard_rejects_disallowed (fq : String) (bc : BoardConfig) (ok : Bool)
    (env : BuildEnv) (s : RunnerState) :
    (¬(s.status = .clean ∨ s.status = .configured) → configure fq bc s = (false, s)) ∧
    (s.status ≠ .built → start s = (false, s)) ∧
    (s.status ≠ .running → suspend ok s = (false, s)) ∧
    (s.status ≠ .suspended → resume ok s = (false, s)) ∧
    (s.status ≠ .running ∧ s.status ≠ .suspended → terminate ok s = (false, s)) ∧
    (s.status ≠ .running ∧ s.status ≠ .suspended → stop ok s = (false, s)) ∧
    ((s.status = .running ∨ s.status = .suspended) → reset s = (false, s)) ∧
    ((s.status = .running ∨ s.status = .suspended) → rebuild env s = (false, s)) := by
  refine ⟨?_, ?_, ?_, ?_, ?_, ?_, ?_, ?_⟩
  · intro h
    simp [configure, h]
  · intro h
    simp [start, h]
  · intro h
    simp [suspend, h]
  · intro h
    simp [resume, h]
  · intro h
    simp [terminate, h.1, h.2]
  · intro h
    simp [stop, terminate, h.1, h.2]
  · intro h
    simp [reset, h]
  · intro h
    simp [rebuild, h]

/-- Witness for C1: a runner in status `stopped` has every guarded
operation rejected without a state change. -/
theorem guard_rejects_disallowed_witness :
    configure "f" sampleConf (sampleState .stopped) = (false, sampleState .stopped) ∧
    start (sampleState .stopped) = (false, sampleState .stopped) ∧
    suspend true (sampleState .stopped) = (false, sampleState .stopped) ∧
    resume true (sampleState .stopped) = (false, sampleState .stopped) ∧
    terminate true (sampleState .stopped) = (false, sampleState .stopped) ∧
    stop true (sampleState .stopped) = (false, sampleState .stopped) ∧
    reset (sampleState .running) = (false, sampleState .running) ∧
    rebuild sampleEnv (sampleState .suspended) = (false, sampleState .suspended) := by
  obtain ⟨h1, h2, h3, h4, h5, h6, -, -⟩ :=
    guard_rejects_disallowed "f" sampleConf true sampleEnv (sampleState .stopped)
  obtain ⟨-, -, -, -, -, -, h7, -⟩ :=
    guard_rejects_disallowed "f" sampleConf true sampleEnv (sampleState .running)
  obtain ⟨-, -, -, -, -, -, -, h8⟩ :=
    guard_rejects_disallowed "f" sampleConf true sampleEnv (sampleState .suspended)
  exact ⟨h1 (by decide), h2 (by decide), h3 (by decide), h4 (by decide),
    h5 (by decide), h6 (by decide), h7 (Or.inl rfl), h8 (Or.inr rfl)⟩

/-- Counterexample for C1 as stated: `build` invoked in status `clean`
(not a permitted source state in the §4.5 table) is not a rejected
no-op: with a successful tool run it returns `true` and moves the status
to `built`. -/
theorem build_unguarded_cex :
    ((build ['s'] sampleSkonf sampleEnv (sampleState0 .clean)).map
      (fun r => (r.1, r.2.status))) = some (true, Status.built) := by
  rfl

theorem tick_of_stopped (s : RunnerState) (h : s.status = .stopped) : tick s = s := by
  simp [tick, h]

theorem tick_iterate_stopped (n : Nat) (s : RunnerState) (h : s.status = .stopped) :
    tick^[n] s = s := by
  induction n with
  | zero => rfl
  | succ n IH => rw [Function.iterate_succ_apply, tick_of_stopped s h, IH]

theorem tick_notify_count (s : RunnerState) :
    (tick s).notify_count = s.notify_count ∨
      ((tick s).notify_count = s.notify_count + 1 ∧ (tick s).status = .stopped) := by
  cases hst : s.status <;> simp [tick, hst] <;> split_ifs <;> simp

/-- C8: `tick` is a no-op in every status other than `running` and
`suspended`; in `running`/`suspended` with the child exited it moves the
status to `stopped` and invokes the exit-notification callback with the
child's exit code; and over any number of ticks the callback fires at
most once. -/
theorem tick_spec (s : RunnerState) :
    ((s.status ≠ .running ∧ s.status ≠ .suspended) → tick s = s) ∧
    ((s.status = .running ∨ s.status = .suspended) → s.child_running = false →
      s.exit_notify_set = true →
      tick s = { s with
        status := .stopped
        notify_count := s.notify_count + 1
        last_notified := some s.child_exit_code }) ∧
    (∀ n : Nat, (tick^[n] s).notify_count ≤ s.notify_count + 1) := by
  refine ⟨?_, ?_, ?_⟩
  · rintro ⟨h1, h2⟩
    cases hst : s.status
    case running => exact absurd hst h1
    case suspended => exact absurd hst h2
    all_goals simp [tick, hst]
  · intro h hc hn
    rcases h with h | h <;> simp [tick, h, hc, hn]
  · intro n
    induction n generalizing s with
    | zero =>
      rw [Function.iterate_zero_apply]
      exact Nat.le_succ _
    | succ n IH =>
      rw [Function.iterate_succ_apply]
      rcases tick_notify_count s with h | ⟨h1, h2⟩
      · calc (tick^[n] (tick s)).notify_count ≤ (tick s).notify_count + 1 := IH (tick s)
          _ = s.notify_count + 1 := by rw [h]
      · rw [tick_iterate_stopped n (tick s) h2, h1]

/-- Witness for C8: a stopped runner's tick is a no-op; a running runner
whose child has exited transitions to `stopped`, notifying exit code 42
once; two ticks never notify more than once. -/
theorem tick_spec_witness :
    tick (sampleState .stopped) = sampleState .stopped ∧
    tick { sampleState .running with child_running := false } =
      { sampleState .running with
        child_running := false
        status := .stopped
        notify_count := 1
        last_notified := some 42 } ∧
    (tick^[2] (sampleState .stopped)).notify_count ≤ 1 := by
  refine ⟨(tick_spec (sampleState .stopped)).1 (by decide), ?_, ?_⟩
  · exact (tick_spec { sampleState .running with child_running := false }).2.1
      (Or.inl rfl) rfl rfl
  · simpa using (tick_spec (sampleState .stopped)).2.2 2

theorem do_build_sketch_id (env : BuildEnv) (s : RunnerState) :
    (do_build env s).2.sketch_id = s.sketch_id := by
  simp only [do_build]
  split <;> rfl

/-- C10: the sketch id is fixed at `Internal` construction: every
operation except `reset` preserves it, `configure` (from its permitted
states) derives the shm region name `SMCE-Runner-{id}` from the current
id (so repeated configures reuse the same name), and `reset` (from its
permitted states) installs a strictly larger, hence fresh, id taken from
the global counter. -/
theorem sketch_id_lifecycle (fq : String) (bc : BoardConfig) (src : List Char)
    (sk : SketchConfig) (env : BuildEnv) (ok : Bool) (s : RunnerState) :
    ((configure fq bc s).2.sketch_id = s.sketch_id) ∧
    (∀ r, build src sk env s = some r → r.2.sketch_id = s.sketch_id) ∧
    ((rebuild env s).2.sketch_id = s.sketch_id) ∧
    ((start s).2.sketch_id = s.sketch_id) ∧
    ((suspend ok s).2.sketch_id = s.sketch_id) ∧
    ((resume ok s).2.sketch_id = s.sketch_id) ∧
    ((terminate ok s).2.sketch_id = s.sketch_id) ∧
    ((stop ok s).2.sketch_id = s.sketch_id) ∧
    ((tick s).sketch_id = s.sketch_id) ∧
    ((s.status = .clean ∨ s.status = .configured) →
      (configure fq bc s).2.shm_name = regionName s.sketch_id) ∧
    (¬(s.status = .running ∨ s.status = .suspended) → s.sketch_id ≤ s.last_id →
      (reset s).2.sketch_id = s.last_id + 1 ∧ s.sketch_id < (reset s).2.sketch_id) := by
  refine ⟨?_, ?_, ?_, ?_, ?_, ?_, ?_, ?_, ?_, ?_, ?_⟩
  · simp only [configure]
    split <;> rfl
  · intro r h
    simp only [build] at h
    split at h
    · exact absurd h (by simp)
    · split at h
      · cases h
        rfl
      · cases h
        exact do_build_sketch_id env _
  · simp only [rebuild]
    split
    · rfl
    · split
      · rfl
      · exact do_build_sketch_id env _
  · simp only [start]
    split <;> rfl
  · simp only [suspend]
    split <;> rfl
  · simp only [resume]
    split <;> rfl
  · simp only [terminate]
    split
    · rfl
    · split <;> rfl
  · simp only [stop, terminate]
    split
    · rfl
    · split <;> rfl
  · cases hst : s.status <;> simp [tick, hst] <;> split_ifs <;> rfl
  · intro h
    simp [configure, h]
  · intro h hle
    simp only [reset]
    rw [if_neg h]
    refine ⟨rfl, ?_⟩
    show s.sketch_id < s.last_id + 1
    omega

/-- Witness for C10: configuring an already-configured runner keeps id 5
and region name `SMCE-Runner-5`; resetting a built runner draws a fresh,
larger id from the counter. -/
theorem sketch_id_lifecycle_witness :
    (configure "f" sampleConf (sampleState .configured)).2.sketch_id = 5 ∧
    (configure "f" sampleConf (sampleState .configured)).2.shm_name = "SMCE-Runner-5" ∧
    (reset (sampleState .built)).2.sketch_id = 8 ∧
    5 < (reset (sampleState .built)).2.sketch_id := by
  obtain ⟨h1, -, -, -, -, -, -, -, -, h10, -⟩ :=
    sketch_id_lifecycle "f" sampleConf [] sampleSkonf sampleEnv true (sampleState .configured)
  obtain ⟨-, -, -, -, -, -, -, -, -, -, h11⟩ :=
    sketch_id_lifecycle "f" sampleConf [] sampleSkonf sampleEnv true (sampleState .built)
  have hr := h11 (by decide) (by decide)
  exact ⟨h1, by rw [h10 (Or.inr rfl)]; rfl, hr.1, hr.2⟩

theorem join_cons (a : String) (s : List String) :
    String.join (a :: s) = a ++ String.join s := by
  apply String.ext
  simp

theorem ppStep_eq (acc : String) (l : SketchLibrary) :
    ppStep acc l = acc ++ ppContrib l := by
  cases l <;> simp [ppStep, ppContrib, String.append_assoc, String.append_empty]

theorem foldl_ppStep (libs : List SketchLibrary) (acc : String) :
    libs.foldl ppStep acc = acc ++ String.join (libs.map ppContrib) := by
  induction libs generalizing acc with
  | nil => simp [String.join]
  | cons l ls IH =>
    rw [List.foldl_cons, IH, ppStep_eq, List.map_cons, join_cons, String.append_assoc]

theorem clStep_eq (acc : String × String × String) (l : SketchLibrary) :
    clStep acc l =
      (acc.1 ++ clRemoteContrib l, acc.2.1 ++ clLocalContrib l, acc.2.2 ++ clPatchContrib l) := by
  cases l with
  | remote n v =>
    simp [clStep, clRemoteContrib, clLocalContrib, clPatchContrib,
      String.append_assoc, String.append_empty]
  | localLib root patch =>
    by_cases hp : patch = "" <;>
      simp [clStep, clRemoteContrib, clLocalContrib, clPatchContrib, hp,
        String.append_assoc, String.append_empty]
  | freestanding =>
    simp [clStep, clRemoteContrib, clLocalContrib, clPatchContrib, String.append_empty]

theorem foldl_clStep (libs : List SketchLibrary) (acc : String × String × String) :
    libs.foldl clStep acc =
      (acc.1 ++ String.join (libs.map clRemoteContrib),
       acc.2.1 ++ String.join (libs.map clLocalContrib),
       acc.2.2 ++ String.join (libs.map clPatchContrib)) := by
  induction libs generalizing acc with
  | nil => simp [String.join]
  | cons l ls IH =>
    rw [List.foldl_cons, IH, clStep_eq]
    simp only [List.map_cons, join_cons, String.append_assoc]

/-- C5: the four library-list arguments built by `build` equal the §6.3
spec-side assembly (per-entry renders concatenated in input order, then
one trailing `;` trimmed): remotes render as `name`/`name@version` in
the matching remote list, non-patching locals put their path in
`complink_local`, patching locals put `path|name` in `complink_patch`
and register `name ` (trailing space) in `complink_remote`, freestanding
libraries contribute nothing; the S3 scenario evaluates as specified. -/
theorem lib_args_assembly (skonf : SketchConfig) :
    buildLibArgs skonf = specLibArgs skonf ∧
    buildLibArgs
      { preproc_libs := []
        complink_libs := [.remote "WiFi" "1.2.3", .localLib "/x/lib" "",
          .localLib "/x/patch" "Adafruit_GFX", .freestanding] } =
      { pp_remote := "-DPREPROC_REMOTE_LIBS="
        cl_remote := "-DCOMPLINK_REMOTE_LIBS=WiFi@1.2.3;Adafruit_GFX "
        cl_local := "-DCOMPLINK_LOCAL_LIBS=/x/lib"
        cl_patch := "-DCOMPLINK_PATCH_LIBS=/x/patch|Adafruit_GFX" } := by
  constructor
  · simp [buildLibArgs, specLibArgs, foldl_ppStep, foldl_clStep]
  · rfl

theorem scanLines_cons (l : List Char) (T : List (List Char)) (st : ScanState) :
    scanLines (l :: T) st = scanLines T (scanLine st l) :=
  rfl

theorem isPrefixOf_append_self (l m : List Char) : l.isPrefixOf (l ++ m) = true := by
  induction l with
  | nil => simp [List.isPrefixOf]
  | cons c cs IH => simp [List.isPrefixOf, IH]

theorem isMarkerLine_mkMarker (d : List Char) : isMarkerLine (mkMarker d) = true := by
  rw [isMarkerLine, mkMarker]
  exact isPrefixOf_append_self markerTag ('"' :: (d ++ ['"']))

theorem extractPayload_mkMarker (d : List Char) (hd : '"' ∉ d) :
    extractPayload (mkMarker d) = d := by
  have hmem : '"' ∈ mkMarker d := by
    rw [mkMarker]
    exact List.mem_append_right _ (List.mem_cons_self _ _)
  rw [extractPayload, if_pos hmem, mkMarker, markerTag]
  simp [List.dropWhile_cons]

theorem scanLines_markers (L : List (List Char)) (st : ScanState) :
    (scanLines L st).markers = st.markers + (L.filter isMarkerLine).length := by
  induction L generalizing st with
  | nil => simp [scanLines]
  | cons l T IH =>
    rw [scanLines_cons, IH]
    by_cases hm : isMarkerLine l
    · obtain ⟨d0, b0, g0, m0, a0⟩ := st
      rcases m0 with _ | (_ | n) <;> simp [scanLine, hm, List.filter_cons] <;> omega
    · simp [scanLine, hm, List.filter_cons]

theorem scanLines_log (L : List (List Char)) (st : ScanState) :
    (scanLines L st).log =
      st.log ++ ((L.filter (fun l => !(isMarkerLine l))).map (fun l => l ++ ['\n'])).flatten := by
  induction L generalizing st with
  | nil => simp [scanLines]
  | cons l T IH =>
    rw [scanLines_cons, IH]
    by_cases hm : isMarkerLine l
    · obtain ⟨d0, b0, g0, m0, a0⟩ := st
      rcases m0 with _ | (_ | n) <;> simp [scanLine, hm, List.filter_cons]
    · simp [scanLine, hm, List.filter_cons]

theorem scanLines_dir (L : List (List Char)) (st : ScanState) :
    (scanLines L st).dir =
      if st.markers = 0 then
        (((L.filter isMarkerLine).head?).map extractPayload).getD st.dir
      else st.dir := by
  induction L generalizing st with
  | nil => simp [scanLines]
  | cons l T IH =>
    rw [scanLines_cons, IH]
    by_cases hm : isMarkerLine l
    · obtain ⟨d0, b0, g0, m0, a0⟩ := st
      rcases m0 with _ | (_ | n) <;> simp [scanLine, hm, List.filter_cons]
    · simp [scanLine, hm, List.filter_cons]

theorem scanLines_bin (L : List (List Char)) (st : ScanState) :
    (scanLines L st).bin =
      if st.markers = 0 then
        (((L.filter isMarkerLine)[1]?).map extractPayload).getD st.bin
      else if st.markers = 1 then
        (((L.filter isMarkerLine).head?).map extractPayload).getD st.bin
      else st.bin := by
  induction L generalizing st with
  | nil => simp [scanLines]
  | cons l T IH =>
    rw [scanLines_cons, IH]
    by_cases hm : isMarkerLine l
    · obtain ⟨d0, b0, g0, m0, a0⟩ := st
      rcases m0 with _ | (_ | n) <;>
        simp [scanLine, hm, List.filter_cons, List.head?_eq_getElem?]
    · simp [scanLine, hm, List.filter_cons]

theorem scanLines_asserted (L : List (List Char)) (st : ScanState) :
    ((scanLines L st).asserted = true ↔
      (st.asserted = true ∨
        (1 ≤ (L.filter isMarkerLine).length ∧
          3 ≤ st.markers + (L.filter isMarkerLine).length))) := by
  induction L generalizing st with
  | nil => simp [scanLines]
  | cons l T IH =>
    rw [scanLines_cons, IH]
    by_cases hm : isMarkerLine l
    · obtain ⟨d0, b0, g0, m0, a0⟩ := st
      rcases m0 with _ | (_ | n) <;>
        cases a0 <;>
          simp [scanLine, hm, List.filter_cons] <;> omega
    · simp [scanLine, hm, List.filter_cons]

theorem appendLogLines_eq (log : List Char) (lines : List (List Char)) :
    appendLogLines log lines = log ++ (lines.map (fun l => l ++ ['\n'])).flatten := by
  induction lines generalizing log with
  | nil => simp [appendLogLines]
  | cons l T IH =>
    rw [appendLogLines, List.foldl_cons, ← appendLogLines, IH]
    simp

theorem do_build_sketch_dir (env : BuildEnv) (s : RunnerState) :
    (do_build env s).2.sketch_dir = s.sketch_dir := by
  simp only [do_build]
  split <;> rfl

theorem do_build_sketch_bin (env : BuildEnv) (s : RunnerState) :
    (do_build env s).2.sketch_bin = s.sketch_bin := by
  simp only [do_build]
  split <;> rfl

theorem do_build_build_log (env : BuildEnv) (s : RunnerState) :
    (do_build env s).2.build_log = appendLogLines s.build_log env.build.lines := by
  simp only [do_build]
  split <;> rfl

/-- C6: when the configure-pass output contains exactly two well-formed
`-- SMCE: "<payload>"` markers, `build` does not hit the assertion; the
resulting runner has `sketch_dir` equal to the first marker's payload
and `sketch_bin` equal to the second's, and the build log receives every
non-marker line exactly once, each with a trailing newline (followed by
the build-pass output when the configure pass exits 0). A third marker
makes `build` hit `assert(false)`. -/
theorem build_marker_protocol (s : RunnerState) (src : List Char) (sk : SketchConfig)
    (env : BuildEnv) :
    (∀ d1 d2, env.conf.lines.filter isMarkerLine = [mkMarker d1, mkMarker d2] →
      '"' ∉ d1 → '"' ∉ d2 →
      ∃ b s', build src sk env s = some (b, s') ∧
        s'.sketch_dir = d1 ∧ s'.sketch_bin = d2 ∧
        s'.build_log = (if env.conf.exit_code = 0 then
            appendLogLines (appendLogLines s.build_log
              (env.conf.lines.filter (fun l => !(isMarkerLine l)))) env.build.lines
          else appendLogLines s.build_log
            (env.conf.lines.filter (fun l => !(isMarkerLine l))))) ∧
    (3 ≤ (env.conf.lines.filter isMarkerLine).length →
      build src sk env s = none) := by
  constructor
  · intro d1 d2 hM hq1 hq2
    set st0 : ScanState :=
      { dir := s.sketch_dir, bin := s.sketch_bin, log := s.build_log,
        markers := 0, asserted := false } with hst0
    have hA : (scanLines env.conf.lines st0).asserted = false := by
      cases hB : (scanLines env.conf.lines st0).asserted with
      | false => rfl
      | true =>
        have hiff := (scanLines_asserted env.conf.lines st0).mp hB
        rw [hM] at hiff
        simp [hst0] at hiff
    have hD : (scanLines env.conf.lines st0).dir = d1 := by
      rw [scanLines_dir, hM]
      simp [hst0, extractPayload_mkMarker d1 hq1]
    have hBin : (scanLines env.conf.lines st0).bin = d2 := by
      rw [scanLines_bin, hM]
      simp [hst0, extractPayload_mkMarker d2 hq2]
    have hL : (scanLines env.conf.lines st0).log =
        appendLogLines s.build_log (env.conf.lines.filter (fun l => !(isMarkerLine l))) := by
      rw [scanLines_log, appendLogLines_eq]
    by_cases hz : env.conf.exit_code = 0
    · refine ⟨(do_build env
          { s with
            sketch_dir := (scanLines env.conf.lines st0).dir
            sketch_bin := (scanLines env.conf.lines st0).bin
            build_log := (scanLines env.conf.lines st0).log
            sketch_path := src }).1,
        (do_build env
          { s with
            sketch_dir := (scanLines env.conf.lines st0).dir
            sketch_bin := (scanLines env.conf.lines st0).bin
            build_log := (scanLines env.conf.lines st0).log
            sketch_path := src }).2, ?_, ?_, ?_, ?_⟩
      · simp only [build, ← hst0, hA]
        simp [hz]
      · rw [do_build_sketch_dir]
        exact hD
      · rw [do_build_sketch_bin]
        exact hBin
      · rw [do_build_build_log, if_pos hz, hL]
    · refine ⟨false,
        { s with
          sketch_dir := (scanLines env.conf.lines st0).dir
          sketch_bin := (scanLines env.conf.lines st0).bin
          build_log := (scanLines env.conf.lines st0).log }, ?_, ?_, ?_, ?_⟩
      · simp only [build, ← hst0, hA]
        simp [hz]
      · exact hD
      · exact hBin
      · rw [if_neg hz]
        exact hL
  · intro h3
    have hA : (scanLines env.conf.lines
        { dir := s.sketch_dir, bin := s.sketch_bin, log := s.build_log,
          markers := 0, asserted := false }).asserted = true := by
      rw [scanLines_asserted]
      right
      exact ⟨by omega, by simpa using h3⟩
    simp only [build, hA]
    simp

/-- Witness for C6: the sample environment emits markers `/d` and `/b`
around a non-marker line; `build` records them as sketch dir and bin. -/
theorem build_marker_protocol_witness :
    ∃ b s', build ['s'] sampleSkonf sampleEnv (sampleState0 .clean) = some (b, s') ∧
      s'.sketch_dir = ['/', 'd'] ∧ s'.sketch_bin = ['/', 'b'] := by
  obtain ⟨h1, -⟩ :=
    build_marker_protocol (sampleState0 .clean) ['s'] sampleSkonf sampleEnv
  obtain ⟨b, s', hb, hd, hbin, -⟩ :=
    h1 ['/', 'd'] ['/', 'b'] (by decide) (by decide) (by decide)
  exact ⟨b, s', hb, hd, hbin⟩

theorem updatePin_id (p : Pin) (d : GpioDriver) : (updatePin p d).id = p.id := by
  cases ha : d.analog_driver <;> cases hd : d.digital_driver <;> simp [updatePin, ha, hd]

theorem set_getElem?_self {α : Type} (l : List α) (i : Nat) (a : α) (h : l[i]? = some a) :
    l.set i a = l := by
  induction l generalizing i with
  | nil => simp at h
  | cons b t IH =>
    cases i with
    | zero =>
      rw [List.getElem?_cons_zero] at h
      injection h with h
      rw [← h]
      rfl
    | succ n =>
      rw [List.getElem?_cons_succ] at h
      show b :: t.set n a = b :: t
      rw [IH n h]

theorem applyDriver_map_id (sp : List Nat) (pins : List Pin) (d : GpioDriver) :
    (applyDriver sp pins d).map Pin.id = pins.map Pin.id := by
  cases hf : sp.findIdx? (fun y => y = d.pin_id) with
  | none => simp only [applyDriver, hf]
  | some idx =>
    cases hg : pins.get? idx with
    | none => simp only [applyDriver, hf, hg]
    | some p =>
      simp only [applyDriver, hf, hg]
      rw [List.map_set, updatePin_id]
      apply set_getElem?_self
      rw [List.getElem?_map, ← List.get?_eq_getElem?, hg]
      rfl

theorem foldl_applyDriver_map_id (sp : List Nat) (ds : List GpioDriver) (pins : List Pin) :
    (ds.foldl (applyDriver sp) pins).map Pin.id = pins.map Pin.id := by
  induction ds generalizing pins with
  | nil => rfl
  | cons d ds IH => rw [List.foldl_cons, IH, applyDriver_map_id]

theorem boardDataPins_map_id (c : BoardConfig) :
    (boardDataPins c).map Pin.id = List.insertionSort (· ≤ ·) c.pins := by
  simp only [boardDataPins, foldl_applyDriver_map_id, List.map_map]
  show List.map (fun i : Nat => i) (List.insertionSort (· ≤ ·) c.pins) =
    List.insertionSort (· ≤ ·) c.pins
  exact List.map_id' _

theorem findIdx?_self_of_nodup (sp : List Nat) (hnd : sp.Nodup) (i x : Nat)
    (hi : sp[i]? = some x) :
    sp.findIdx? (fun y => y = x) = some i := by
  obtain ⟨hlen, hval⟩ := List.getElem?_eq_some.mp hi
  rw [List.findIdx?_eq_some_iff_getElem]
  refine ⟨hlen, by simp [hval], ?_⟩
  intro j hji
  simp only [decide_eq_true_eq]
  intro hx
  have hj : j = i := (hnd.getElem_inj_iff).mp (by rw [hval]; exact hx)
  omega

theorem findIdx?_getElem_of_some (sp : List Nat) (x j : Nat)
    (h : sp.findIdx? (fun y => y = x) = some j) :
    ∃ hj : j < sp.length, sp[j] = x := by
  rw [List.findIdx?_eq_some_iff_getElem] at h
  obtain ⟨hj, hp, -⟩ := h
  exact ⟨hj, by simpa using hp⟩

theorem foldl_applyDriver_getElem (sp : List Nat) (hnd : sp.Nodup)
    (ds : List GpioDriver) (i pid : Nat) (hsp : sp[i]? = some pid) :
    ∀ (pins : List Pin) (p : Pin), pins.length = sp.length → pins[i]? = some p →
      (ds.foldl (applyDriver sp) pins)[i]? =
        some ((ds.filter (fun d => d.pin_id = pid)).foldl updatePin p) := by
  induction ds with
  | nil =>
    intro pins p hlen hp
    simpa using hp
  | cons d ds IH =>
    intro pins p hlen hp
    rw [List.foldl_cons]
    by_cases hdp : d.pin_id = pid
    · have hfi : sp.findIdx? (fun y => y = d.pin_id) = some i := by
        rw [hdp]
        exact findIdx?_self_of_nodup sp hnd i pid hsp
      have hget : pins.get? i = some p := by
        rw [List.get?_eq_getElem?]
        exact hp
      have happ : applyDriver sp pins d = pins.set i (updatePin p d) := by
        simp only [applyDriver, hfi, hget]
      rw [happ, List.filter_cons, if_pos (by simp [hdp]), List.foldl_cons]
      apply IH
      · rw [List.length_set]
        exact hlen
      · rw [List.getElem?_set_self', hp]
        rfl
    · rw [List.filter_cons, if_neg (by simp [hdp])]
      cases hf : sp.findIdx? (fun y => y = d.pin_id) with
      | none =>
        have happ : applyDriver sp pins d = pins := by
          simp only [applyDriver, hf]
        rw [happ]
        exact IH pins p hlen hp
      | some j =>
        obtain ⟨hj, hjval⟩ := findIdx?_getElem_of_some sp d.pin_id j hf
        have hji : j ≠ i := by
          intro he
          subst he
          obtain ⟨hi2, hival⟩ := List.getElem?_eq_some.mp hsp
          exact hdp (hjval.symm.trans hival)
        cases hg : pins.get? j with
        | none =>
          have happ : applyDriver sp pins d = pins := by
            simp only [applyDriver, hf, hg]
          rw [happ]
          exact IH pins p hlen hp
        | some q =>
          have happ : applyDriver sp pins d = pins.set j (updatePin q d) := by
            simp only [applyDriver, hf, hg]
          rw [happ]
          apply IH
          · rw [List.length_set]
            exact hlen
          · rw [List.getElem?_set_ne hji]
            exact hp

theorem foldl_updatePin_spec (fs : List GpioDriver) (p : Pin) :
    (fs.foldl updatePin p).id = p.id ∧
    (fs.foldl updatePin p).can_analog_read =
      (((fs.filterMap (fun d => d.analog_driver)).getLast?).map
        DriverCaps.board_read).getD p.can_analog_read ∧
    (fs.foldl updatePin p).can_analog_write =
      (((fs.filterMap (fun d => d.analog_driver)).getLast?).map
        DriverCaps.board_write).getD p.can_analog_write ∧
    (fs.foldl updatePin p).can_digital_read =
      (((fs.filterMap (fun d => d.digital_driver)).getLast?).map
        DriverCaps.board_read).getD p.can_digital_read ∧
    (fs.foldl updatePin p).can_digital_write =
      (((fs.filterMap (fun d => d.digital_driver)).getLast?).map
        DriverCaps.board_write).getD p.can_digital_write := by
  induction fs using List.reverseRecOn with
  | nil => simp
  | append_singleton l d IH =>
    obtain ⟨IH1, IH2, IH3, IH4, IH5⟩ := IH
    cases ha : d.analog_driver <;> cases hd : d.digital_driver <;>
      simp [List.foldl_append, List.filterMap_append, List.getLast?_append,
        updatePin, ha, hd, IH1, IH2, IH3, IH4, IH5]

/-- C3 (amended): for every board config with distinct declared pin ids,
each constructed pin's capability flags follow last-write-wins
semantics: each flag equals the value contributed by the LAST driver
targeting that pin that carries the relevant sub-descriptor (`false` if
none does), not the OR of all contributions; and a gpio driver whose
`pin_id` is not among the declared pins modifies no pin and raises no
error. -/
theorem gpio_last_write_wins (c : BoardConfig) (hnd : c.pins.Nodup) :
    (∀ p ∈ boardDataPins c,
      p.can_analog_read = lastFlag (analogContribs c.gpio_drivers p.id) DriverCaps.board_read ∧
      p.can_analog_write = lastFlag (analogContribs c.gpio_drivers p.id) DriverCaps.board_write ∧
      p.can_digital_read = lastFlag (digitalContribs c.gpio_drivers p.id) DriverCaps.board_read ∧
      p.can_digital_write = lastFlag (digitalContribs c.gpio_drivers p.id) DriverCaps.board_write) ∧
    (∀ d ∈ c.gpio_drivers, d.pin_id ∉ c.pins →
      ∀ pins, applyDriver (List.insertionSort (· ≤ ·) c.pins) pins d = pins) := by
  have hsp_nodup : (List.insertionSort (· ≤ ·) c.pins).Nodup :=
    (List.perm_insertionSort (· ≤ ·) c.pins).symm.nodup hnd
  constructor
  · intro p hp
    obtain ⟨i, hpi⟩ := List.getElem?_of_mem hp
    have hmap := boardDataPins_map_id c
    have hspi : (List.insertionSort (· ≤ ·) c.pins)[i]? = some p.id := by
      rw [← hmap, List.getElem?_map, hpi]
      rfl
    have h3 := foldl_applyDriver_getElem (List.insertionSort (· ≤ ·) c.pins) hsp_nodup
      c.gpio_drivers i p.id hspi
      ((List.insertionSort (· ≤ ·) c.pins).map (fun j => ({ id := j } : Pin)))
      { id := p.id }
      (by simp)
      (by rw [List.getElem?_map, hspi]; rfl)
    have hbd : (boardDataPins c)[i]? =
        some ((c.gpio_drivers.filter (fun d => d.pin_id = p.id)).foldl updatePin
          { id := p.id }) := by
      simpa [boardDataPins] using h3
    rw [hpi] at hbd
    injection hbd with hbd
    obtain ⟨-, h2, h3', h4, h5⟩ :=
      foldl_updatePin_spec (c.gpio_drivers.filter (fun d => d.pin_id = p.id)) { id := p.id }
    refine ⟨?_, ?_, ?_, ?_⟩
    · conv_lhs => rw [hbd]
      exact h2
    · conv_lhs => rw [hbd]
      exact h3'
    · conv_lhs => rw [hbd]
      exact h4
    · conv_lhs => rw [hbd]
      exact h5
  · intro d hd hmem pins
    have hf : (List.insertionSort (· ≤ ·) c.pins).findIdx? (fun y => y = d.pin_id) = none := by
      rw [List.findIdx?_eq_none_iff]
      intro x hx
      simp only [decide_eq_false_iff_not]
      intro he
      exact hmem ((List.perm_insertionSort (· ≤ ·) c.pins).mem_iff.mp (he ▸ hx))
    simp only [applyDriver, hf]

/-- Counterexample for C3 as stated: on `cexConf` (pin 1 with an
analog-readable driver followed by an analog-non-readable driver for the
same pin) the constructed pin's `can_analog_read` is `false` — the last
write — while the OR of the drivers' contributions is `true`. -/
theorem gpio_or_semantics_cex : ¬ gpioOrSemantics cexConf := by
  decide

/-- Witness for C3: on `cexConf` the single constructed pin follows
last-write-wins. -/
theorem gpio_last_write_wins_witness :
    boardDataPins cexConf =
      [{ id := 1, can_analog_read := false, can_analog_write := false,
         can_digital_read := false, can_digital_write := false }] ∧
    ({ id := 1, can_analog_read := false, can_analog_write := false,
       can_digital_read := false, can_digital_write := false } : Pin).can_analog_read =
      lastFlag (analogContribs cexConf.gpio_drivers 1) DriverCaps.board_read := by
  refine ⟨by decide, ?_⟩
  exact ((gpio_last_write_wins cexConf (by decide)).1
    { id := 1, can_analog_read := false, can_analog_write := false,
      can_digital_read := false, can_digital_write := false } (by decide)).1

/-- C4: from a permitted status and a board config with distinct
declared pin ids, `configure` succeeds, names the shm region
`SMCE-Runner-{sketch_id}`, and installs a pin sequence whose ids are
strictly ascending and are exactly the declared ids. -/
theorem configure_shm_name_and_sorted_pins (fq : String) (bc : BoardConfig)
    (s : RunnerState) (hst : s.status = .clean ∨ s.status = .configured)
    (hnd : bc.pins.Nodup) :
    (configure fq bc s).1 = true ∧
    (configure fq bc s).2.shm_name = "SMCE-Runner-" ++ toString s.sketch_id ∧
    (configure fq bc s).2.board = some (boardDataPins bc) ∧
    List.Sorted (· < ·) ((boardDataPins bc).map Pin.id) ∧
    ((boardDataPins bc).map Pin.id).Perm bc.pins := by
  have hs : List.Sorted (· ≤ ·) (List.insertionSort (· ≤ ·) bc.pins) :=
    List.sorted_insertionSort (· ≤ ·) bc.pins
  have hn : (List.insertionSort (· ≤ ·) bc.pins).Nodup :=
    (List.perm_insertionSort (· ≤ ·) bc.pins).symm.nodup hnd
  refine ⟨?_, ?_, ?_, ?_, ?_⟩
  · simp [configure, hst]
  · simp [configure, hst, regionName]
  · simp [configure, hst]
  · rw [boardDataPins_map_id]
    exact (hs.and hn).imp (fun h => lt_of_le_of_ne h.1 h.2)
  · rw [boardDataPins_map_id]
    exact List.perm_insertionSort (· ≤ ·) bc.pins

/-- Witness for C4: configuring a fresh runner with the S1 board config
(pins `[7, 2, 3]`) yields region name `SMCE-Runner-5` and the strictly
ascending pin id sequence `[2, 3, 7]`. -/
theorem configure_shm_name_and_sorted_pins_witness :
    (configure "f" s1Conf (sampleState0 .clean)).1 = true ∧
    (configure "f" s1Conf (sampleState0 .clean)).2.shm_name = "SMCE-Runner-5" ∧
    List.Sorted (· < ·) ((boardDataPins s1Conf).map Pin.id) ∧
    (boardDataPins s1Conf).map Pin.id = [2, 3, 7] := by
  obtain ⟨h1, h2, -, h4, -⟩ :=
    configure_shm_name_and_sorted_pins "f" s1Conf (sampleState0 .clean)
      (Or.inl rfl) (by decide)
  refine ⟨h1, ?_, h4, by decide⟩
  rw [h2]
  rfl

end SMCE
